import Mathlib

/-!
Verification of the gococo `rexos` core: a shallow embedding of the
authenticated HTTP request executor (`Client.get` / `post` / `patch` /
`delete`), the service-user token refresh (`Client.refreshToken`,
`Client.scheduleTokenRefreshHandler`) and the bearer-token validator
(`ValidateToken`, `getKey`), together with theorems settling the
specification's claims about them.

Modelling conventions:
* Go byte slices are `Option String` (`none` models a nil slice), Go `error`
  results are `Option String` (`none` models a nil error).
* A Go runtime panic (index out of range, nil pointer dereference, failed
  type assertion) is modelled as the `.error` case of `Except String _`.
* `httpClient.Do` either yields a response or a transport error; per the Go
  contract the `*http.Response` is nil in the error case.
* Library calls whose input is an opaque string (base64url + JSON decoding of
  the JWT header segment, signature verification, PEM/x509 public-key
  parsing) are supplied as an explicit environment of functions, so that
  theorems quantify over every possible behaviour of those calls.
-/

namespace Gococo

/-- Decidable equality for `Except`, used to evaluate the model on concrete
inputs. -/
instance {ε α : Type} [DecidableEq ε] [DecidableEq α] : DecidableEq (Except ε α) := fun x y =>
  match x, y with
  | .ok a, .ok b => if h : a = b then .isTrue (by rw [h]) else .isFalse (by simp [h])
  | .error a, .error b => if h : a = b then .isTrue (by rw [h]) else .isFalse (by simp [h])
  | .ok _, .error _ => .isFalse (by simp)
  | .error _, .ok _ => .isFalse (by simp)

/-- Go's `strings.Split` for a one-character separator, over the character
list of the string: splits around every occurrence of `sep`; the result is
never empty. Structural recursion so that concrete inputs evaluate in proofs. -/
def goSplitAux (sep : Char) : List Char → List Char → List (List Char)
  | [], acc => [acc.reverse]
  | c :: rest, acc =>
      if c = sep then acc.reverse :: goSplitAux sep rest []
      else goSplitAux sep rest (c :: acc)

/-- Go's `strings.Split s (String.singleton sep)`. -/
def goSplit (sep : Char) (s : List Char) : List (List Char) :=
  goSplitAux sep s []

/-- Go's `strings.ToLower` on a character list (ASCII case folding; the token
scheme comparison only involves ASCII). -/
def goToLower (s : List Char) : List Char :=
  s.map Char.toLower

/-- MaxTrials defines the maximum trials for sensitive requests to recover any
errors (source constant, value 3). -/
def MaxTrials : Nat := 3

/-- An HTTP response as seen by the client when `httpClient.Do` succeeds.
`fileNameHeader` collapses the `Content-Disposition` handling of the source:
`some f` means the header is present, `mime.ParseMediaType` succeeds and the
`filename` parameter equals `f`; `none` means the header is absent or
unparsable, in which case the source leaves its `fileName` variable unchanged. -/
structure HttpResp where
  statusCode : Nat
  body : String
  fileNameHeader : Option String
  deriving DecidableEq

/-- Result of a single `httpClient.Do` call: either a response, or a transport
error, in which case Go's `http.Client.Do` returns a nil `*http.Response`. -/
inductive DoResult where
  | ok (resp : HttpResp)
  | err (msg : String)
  deriving DecidableEq

/-- Status code carried by a `Do` result, when a response exists at all. -/
def DoResult.statusOf : DoResult → Option Nat
  | .ok r => some r.statusCode
  | .err _ => none

/-- Observable effects of one executor call: how many HTTP requests were sent
(number of `httpClient.Do` calls) and the `time.Sleep` delays in milliseconds,
in order. -/
structure ExecTrace where
  requests : Nat
  sleeps : List Nat
  deriving DecidableEq

/-- Return value of `Client.get`: the tuple `(fileName, body, statusCode, err)`. -/
structure GetReturn where
  fileName : String
  body : Option String
  statusCode : Nat
  err : Option String
  deriving DecidableEq

/-- Retry loop of `Client.get` (source: `for ; trials < MaxTrials; trials++`).
`fuel` is the number of loop iterations still allowed (`MaxTrials - trials`),
which makes the recursion structural; `trials` is the Go loop counter, used in
the error message. On a transport error the source reads
`resp.Header.Get("Content-Disposition")` with `resp = nil` and panics before
reaching its own `err != nil` return, hence the `.error` case. On HTTP 408 the
source sleeps 100 ms and retries; any other status outside 200..299 returns
immediately with a non-nil error; a 2xx returns the body with a nil error. -/
def getLoop (responses : Nat → DoResult) : String → Nat → Nat → ExecTrace →
    Except String GetReturn × ExecTrace
  | fileName, trials, 0, tr =>
      (.ok { fileName := fileName, body := none, statusCode := 408,
             err := some ("Internal GET request failed after " ++
               toString (trials + 1) ++ " trials") }, tr)
  | fileName, trials, fuel + 1, tr =>
      match responses trials with
      | .err _ =>
          (.error "runtime error: invalid memory address or nil pointer dereference",
           { requests := tr.requests + 1, sleeps := tr.sleeps })
      | .ok resp =>
          let fileName1 := match resp.fileNameHeader with
            | some f => f
            | none => fileName
          if resp.statusCode = 408 then
            getLoop responses fileName1 (trials + 1) fuel
              { requests := tr.requests + 1, sleeps := tr.sleeps ++ [100] }
          else if resp.statusCode < 200 ∨ 300 ≤ resp.statusCode then
            (.ok { fileName := fileName1, body := some resp.body,
                   statusCode := resp.statusCode,
                   err := some ("Internal GET request failed after " ++
                     toString (trials + 1) ++ " trials") },
             { requests := tr.requests + 1, sleeps := tr.sleeps })
          else
            (.ok { fileName := fileName1, body := some resp.body,
                   statusCode := resp.statusCode, err := none },
             { requests := tr.requests + 1, sleeps := tr.sleeps })

/-- `Client.get`: sends the GET request, retrying up to `MaxTrials` times on
HTTP 408 with a 100 ms sleep before each retry. -/
def Client.get (responses : Nat → DoResult) : Except String GetReturn × ExecTrace :=
  getLoop responses "" 0 MaxTrials { requests := 0, sleeps := [] }

/-- Return value of `Client.delete`, `Client.post` and `Client.patch`:
the tuple `(body, statusCode, err)`. -/
structure RestReturn where
  body : Option String
  statusCode : Nat
  err : Option String
  deriving DecidableEq

/-- Retry loop of `Client.delete`, shaped like `getLoop`. On a transport error
the source logs and then calls `ioutil.ReadAll(resp.Body)` with `resp = nil`,
which panics. On success the source returns an empty (non-nil) byte slice. -/
def deleteLoop (responses : Nat → DoResult) : Nat → Nat → ExecTrace →
    Except String RestReturn × ExecTrace
  | trials, 0, tr =>
      (.ok { body := some "", statusCode := 408,
             err := some ("Internal DELETE request failed after " ++
               toString (trials + 1) ++ " trials") }, tr)
  | trials, fuel + 1, tr =>
      match responses trials with
      | .err _ =>
          (.error "runtime error: invalid memory address or nil pointer dereference",
           { requests := tr.requests + 1, sleeps := tr.sleeps })
      | .ok resp =>
          if resp.statusCode = 408 then
            deleteLoop responses (trials + 1) fuel
              { requests := tr.requests + 1, sleeps := tr.sleeps ++ [100] }
          else if resp.statusCode < 200 ∨ 300 ≤ resp.statusCode then
            (.ok { body := some resp.body, statusCode := resp.statusCode,
                   err := some ("Internal DELETE request failed after " ++
                     toString (trials + 1) ++ " trials") },
             { requests := tr.requests + 1, sleeps := tr.sleeps })
          else
            (.ok { body := some "", statusCode := resp.statusCode, err := none },
             { requests := tr.requests + 1, sleeps := tr.sleeps })

/-- `Client.delete`: sends the DELETE request, retrying up to `MaxTrials` times
on HTTP 408 with a 100 ms sleep before each retry. -/
def Client.delete (responses : Nat → DoResult) : Except String RestReturn × ExecTrace :=
  deleteLoop responses 0 MaxTrials { requests := 0, sleeps := [] }

/-- `Client.post`: sends exactly one POST request (the source has no retry loop
and its comment explicitly warns against adding one). A transport error returns
an empty body with status 500 and a nil error. A 409 response returns the
response body with a nil error ("resource already exists" convention). A 408
returns an empty body with a non-nil error; any other status outside 200..299
returns the body with a non-nil error; a 2xx returns the body with a nil error. -/
def Client.post (responses : Nat → DoResult) : Except String RestReturn × ExecTrace :=
  let tr : ExecTrace := { requests := 1, sleeps := [] }
  match responses 0 with
  | .err _ => (.ok { body := some "", statusCode := 500, err := none }, tr)
  | .ok resp =>
      if resp.statusCode = 409 then
        (.ok { body := some resp.body, statusCode := resp.statusCode, err := none }, tr)
      else if resp.statusCode = 408 then
        (.ok { body := some "", statusCode := 408,
               err := some "Internal POST request timed out" }, tr)
      else if resp.statusCode < 200 ∨ 300 ≤ resp.statusCode then
        (.ok { body := some resp.body, statusCode := resp.statusCode,
               err := some "Internal POST request failed" }, tr)
      else
        (.ok { body := some resp.body, statusCode := resp.statusCode, err := none }, tr)

/-- `Client.patch`: sends exactly one PATCH request (no retry loop; same source
warning as POST). On a transport error the source only logs and then calls
`ioutil.ReadAll(resp.Body)` with `resp = nil`, which panics. There is no 409
special case for PATCH. -/
def Client.patch (responses : Nat → DoResult) : Except String RestReturn × ExecTrace :=
  let tr : ExecTrace := { requests := 1, sleeps := [] }
  match responses 0 with
  | .err _ =>
      (.error "runtime error: invalid memory address or nil pointer dereference", tr)
  | .ok resp =>
      if resp.statusCode = 408 then
        (.ok { body := some "", statusCode := 408,
               err := some "Internal PATCH request timed out" }, tr)
      else if resp.statusCode < 200 ∨ 300 ≤ resp.statusCode then
        (.ok { body := some resp.body, statusCode := resp.statusCode,
               err := some "Internal PATCH request failed" }, tr)
      else
        (.ok { body := some resp.body, statusCode := resp.statusCode, err := none }, tr)

/-- JwtToken as returned from REXos. The `interface` typed fields of the source
(`user_id`, `user_name`, `user_display_name`) are modelled as one string field. -/
structure JwtToken where
  accessToken : String
  tokenType : String
  expiresIn : Nat
  scope : String
  userID : String
  jti : String
  deriving DecidableEq

/-- One field written by `encoding/json` while unmarshalling a token response.
Go's `json.Unmarshal(body, &c.serviceToken)` decodes in place: every field
decoded before an error is reported has already been written to the target. -/
inductive FieldUpdate where
  | accessToken (v : String)
  | tokenType (v : String)
  | expiresIn (v : Nat)
  | scope (v : String)
  | userID (v : String)
  | jti (v : String)
  deriving DecidableEq

/-- Apply one decoded field to the cached token. -/
def applyUpdate (t : JwtToken) : FieldUpdate → JwtToken
  | .accessToken v => { t with accessToken := v }
  | .tokenType v => { t with tokenType := v }
  | .expiresIn v => { t with expiresIn := v }
  | .scope v => { t with scope := v }
  | .userID v => { t with userID := v }
  | .jti v => { t with jti := v }

/-- Apply the decoded fields, in decoding order, to the cached token. -/
def applyUpdates (t : JwtToken) (us : List FieldUpdate) : JwtToken :=
  us.foldl applyUpdate t

/-- Behaviour of `json.Unmarshal` on one response body: the fields it writes
into the target (in order) and the error it returns, `none` on success. -/
structure UnmarshalOutcome where
  updates : List FieldUpdate
  err : Option String
  deriving DecidableEq

/-- Network outcome of one `refreshToken` call: `httpClient.Do` fails, or
`ioutil.ReadAll` fails, or a body is read whose JSON decode behaves as given. -/
inductive RefreshNet where
  | doErr (msg : String)
  | readErr (msg : String)
  | body (u : UnmarshalOutcome)
  deriving DecidableEq

/-- `Client.refreshToken` (part_009): takes the currently cached `serviceToken`
and the network outcome, and returns the new cached token together with the
boolean success flag. The JSON decode writes into the cached token in place,
under the mutex. -/
def refreshToken (serviceToken : JwtToken) : RefreshNet → JwtToken × Bool
  | .doErr _ => (serviceToken, false)
  | .readErr _ => (serviceToken, false)
  | .body u =>
      let t := applyUpdates serviceToken u.updates
      match u.err with
      | some _ => (t, false)
      | none => (t, true)

/-- Interval computation of `Client.scheduleTokenRefreshHandler` (part_009):
the cron interval is `ExpiresIn - 30` when `ExpiresIn > 30` and
`ExpiresIn - 30 > 60`, and 30 otherwise. `ExpiresIn` is a Go `uint64`; the
subtraction is guarded by the short-circuit `ExpiresIn > 30`, so `Nat`
subtraction is exact on the path where it is used. -/
def scheduleInterval (expiresIn : Nat) : Nat :=
  if 30 < expiresIn ∧ 60 < expiresIn - 30 then expiresIn - 30 else 30

/-- A license item of the custom JWT claims. -/
structure LicenseItem where
  key : String
  valueBoolean : Bool
  valueLong : Int
  deriving DecidableEq

/-- CustomClaims of the JWT: the custom metadata plus the standard claims
fields the source reads. -/
structure CustomClaims where
  userID : String
  licenseItems : List LicenseItem
  maxStorageValue : Int
  expiresAt : Int
  deriving DecidableEq

/-- Verification key selected by `getKey`: the raw shared-secret bytes for
HS256, or a parsed RSA public key (identified abstractly) for RS256. -/
inductive KeyMaterial where
  | secret (bytes : String)
  | rsaPublic (keyId : Nat)
  deriving DecidableEq

/-- Combined outcome of `pem.Decode` and `x509.ParsePKIXPublicKey` on the
configured public-key string: `none` when either step fails, `some (.rsa k)`
for an RSA key, and `some .other` for a public key of any other type, on which
the source's unchecked type assertion `pub.(*rsa.PublicKey)` panics. -/
inductive ParsedPub where
  | rsa (keyId : Nat)
  | other
  deriving DecidableEq

/-- `getKey` (part_006): for HS256 the key is the raw signing-key bytes; for
RS256 the configured public key is PEM-decoded and parsed, with nil returned
when decoding or parsing fails; every other algorithm yields nil. A parsed
non-RSA key hits the unchecked type assertion and panics. -/
def getKey (alg : String) (signingKey : String) (signingPublicKey : String)
    (parsePub : String → Option ParsedPub) : Except String (Option KeyMaterial) :=
  if alg = "HS256" then .ok (some (.secret signingKey))
  else if alg = "RS256" then
    match parsePub signingPublicKey with
    | none => .ok none
    | some (.rsa k) => .ok (some (.rsaPublic k))
    | some .other => .error "interface conversion: interface is not *rsa.PublicKey"
  else .ok none

/-- Combined outcome of `jwt.DecodeSegment` and `json.Unmarshal` on the first
dot-segment of the JWT: a decode error, an unmarshal error, or a parsed header
map whose `alg` entry is `some a` when present and a string, and `none`
otherwise, where the source's unchecked assertion `token.Header["alg"].(string)`
panics. -/
inductive HeaderDecode where
  | decodeErr (msg : String)
  | unmarshalErr (msg : String)
  | header (alg : Option String)

/-- Signature facts about a compact JWT string, as consumed by
`jwt.ParseWithClaims`: the algorithm its signature actually verifies under, the
key material it verifies against, whether the standard claims (expiry and the
like) validate, and the decoded custom claims. -/
structure TokenSig where
  alg : String
  key : KeyMaterial
  stdClaimsValid : Bool
  claims : CustomClaims
  deriving DecidableEq

/-- `jwt.ParseWithClaims` with the source's key function, which always returns
a nil error together with the key selected by `getKey`: with a nil (`none`)
key, verification always fails; with a key, it succeeds exactly when the
token's signature verifies under the declared algorithm with that key and the
standard claims are valid. -/
def parseWithClaims (tok : TokenSig) (declaredAlg : String)
    (key : Option KeyMaterial) : Except String CustomClaims :=
  match key with
  | none => .error "key is of invalid type"
  | some k =>
      if declaredAlg = tok.alg ∧ k = tok.key ∧ tok.stdClaimsValid then .ok tok.claims
      else .error "signature is invalid"

/-- The slice of a `gin.Context` that `ValidateToken` reads and writes: the
request's `authorization` header (empty string when absent, as `GetHeader`
reports it), the key/value store (`c.Set` / `c.GetString`), the abort status
and whether `c.Next` was called. A request is rejected exactly when
`abortedStatus` is set; a middleware that returns without aborting lets gin
continue the handler chain. -/
structure GinCtx where
  reqAuthHeader : String
  keys : List (String × String)
  abortedStatus : Option Nat
  nextCalled : Bool
  deriving DecidableEq

/-- `c.GetString k`: the stored string for key `k`, or the empty string. -/
def GinCtx.getString (c : GinCtx) (k : String) : String :=
  (c.keys.lookup k).getD ""

/-- `c.Set k v`. -/
def GinCtx.set (c : GinCtx) (k v : String) : GinCtx :=
  { c with keys := (k, v) :: c.keys }

/-- `c.AbortWithStatus s`. -/
def GinCtx.abortWithStatus (c : GinCtx) (s : Nat) : GinCtx :=
  { c with abortedStatus := some s }

/-- `c.Next`. -/
def GinCtx.next (c : GinCtx) : GinCtx :=
  { c with nextCalled := true }

/-- Token string used by `ValidateToken`: the `authorization` request header,
falling back to the interceptor value stored in the context under the same key
when the header is absent. -/
def effectiveToken (c : GinCtx) : String :=
  if c.reqAuthHeader = "" then c.getString "authorization" else c.reqAuthHeader

/-- Behaviour of the cryptographic library calls on concrete strings:
header-segment decoding, the signature facts of a compact JWT string, and
public-key parsing of the configured PEM string. -/
structure JwtEnv where
  decodeHeader : String → HeaderDecode
  sigOf : String → TokenSig
  parsePub : String → Option ParsedPub

/-- `ValidateToken` (part_006) as a function from the incoming context to the
outgoing context, with `.error` modelling a Go runtime panic. It mirrors the
source step by step: header extraction with interceptor fallback; the
case-insensitive `bearer` scheme check on `split[0]`; the `split[1]` access,
which panics when the value has no space-separated second part; the
header-segment decode, whose two failure paths log and return WITHOUT
aborting; the `alg` type assertion, which panics when `alg` is absent or not a
string; key selection via `getKey`; `jwt.ParseWithClaims`, whose failure
aborts with 403; the `UserID` context write; and the license-item check of
`compositeName[0]`, skipped when no composite name is supplied. -/
def ValidateToken (env : JwtEnv) (c : GinCtx) (signingKey signingPublicKey : String)
    (compositeName : List String) : Except String GinCtx :=
  let tokenString := effectiveToken c
  if tokenString = "" then .ok (c.abortWithStatus 403)
  else
    let split := goSplit ' ' tokenString.toList
    if goToLower (split.getD 0 []) ≠ "bearer".toList then .ok (c.abortWithStatus 403)
    else
      match split.get? 1 with
      | none => .error "runtime error: index out of range"
      | some tokenPartChars =>
          let tokenPart := String.mk tokenPartChars
          let parts := goSplit '.' tokenPartChars
          match env.decodeHeader (String.mk (parts.getD 0 [])) with
          | .decodeErr _ => .ok c
          | .unmarshalErr _ => .ok c
          | .header none => .error "interface conversion: interface is nil, not string"
          | .header (some alg) =>
              match getKey alg signingKey signingPublicKey env.parsePub with
              | .error p => .error p
              | .ok key =>
                  match parseWithClaims (env.sigOf tokenPart) alg key with
                  | .error _ => .ok (c.abortWithStatus 403)
                  | .ok claims =>
                      let c1 := c.set "UserID" claims.userID
                      match compositeName with
                      | [] => .ok c1.next
                      | first :: _ =>
                          if claims.licenseItems.any (fun li => li.key == first) then
                            .ok c1.next
                          else .ok (c1.abortWithStatus 403)

/-! Concrete inputs used to evaluate the model. -/

/-- A remote that answers HTTP 408 to every request. -/
def allTimeout : Nat → DoResult :=
  fun _ => .ok { statusCode := 408, body := "", fileNameHeader := none }

/-- A remote that answers HTTP 408 once and then HTTP 200. -/
def okAfterOneTimeout : Nat → DoResult :=
  fun i => if i = 0 then .ok { statusCode := 408, body := "", fileNameHeader := none }
           else .ok { statusCode := 200, body := "ok-body", fileNameHeader := none }

/-- A remote that answers HTTP 404 to every request. -/
def notFoundStream : Nat → DoResult :=
  fun _ => .ok { statusCode := 404, body := "not found", fileNameHeader := none }

/-- A remote that answers HTTP 409 to every request. -/
def conflictStream : Nat → DoResult :=
  fun _ => .ok { statusCode := 409, body := "existing resource", fileNameHeader := none }

/-- A transport that fails every request with an error and no response. -/
def transportFailStream : Nat → DoResult :=
  fun _ => .err "connection refused"

/-- Claims of the specification's scenario token: user `u1` holding the
`proj-x` license item. -/
def scenarioClaims : CustomClaims :=
  { userID := "u1"
  , licenseItems := [{ key := "proj-x", valueBoolean := false, valueLong := 0 }]
  , maxStorageValue := 0, expiresAt := 0 }

/-- Signature facts of the scenario token: validly signed with HS256 under the
secret `s3cret`, standard claims valid. -/
def scenarioSig : TokenSig :=
  { alg := "HS256", key := .secret "s3cret", stdClaimsValid := true, claims := scenarioClaims }

/-- Library behaviour for the scenario token: its header segment decodes to
alg HS256 and its signature verifies as `scenarioSig`. -/
def scenarioEnv : JwtEnv :=
  { decodeHeader := fun _ => .header (some "HS256")
  , sigOf := fun _ => scenarioSig
  , parsePub := fun _ => none }

/-- Incoming context carrying the scenario token as bearer value. -/
def scenarioCtx : GinCtx :=
  { reqAuthHeader := "Bearer h.p.s", keys := [], abortedStatus := none, nextCalled := false }

/-- Library behaviour for a token whose declared algorithm is the string
`none` (an algorithm-confusion attempt). -/
def noneAlgEnv : JwtEnv :=
  { decodeHeader := fun _ => .header (some "none")
  , sigOf := fun _ => scenarioSig
  , parsePub := fun _ => none }

/-- Library behaviour when the JWT header segment is not valid base64url. -/
def decodeFailEnv : JwtEnv :=
  { decodeHeader := fun _ => .decodeErr "illegal base64 data at input byte 0"
  , sigOf := fun _ => scenarioSig
  , parsePub := fun _ => none }

/-- Library behaviour when the decoded JWT header segment is not valid JSON. -/
def unmarshalFailEnv : JwtEnv :=
  { decodeHeader := fun _ => .unmarshalErr "invalid character"
  , sigOf := fun _ => scenarioSig
  , parsePub := fun _ => none }

/-- Library behaviour when the decoded JWT header has no string `alg` field. -/
def noAlgFieldEnv : JwtEnv :=
  { decodeHeader := fun _ => .header none
  , sigOf := fun _ => scenarioSig
  , parsePub := fun _ => none }

/-- Incoming context whose bearer token's header segment will fail to decode. -/
def badSegmentCtx : GinCtx :=
  { reqAuthHeader := "Bearer !!!.payload.sig", keys := [], abortedStatus := none, nextCalled := false }

/-- Incoming context whose authorization value has no space-separated second
part. -/
def bareBearerCtx : GinCtx :=
  { reqAuthHeader := "Bearer", keys := [], abortedStatus := none, nextCalled := false }

/-- A cached service credential from an earlier successful refresh. -/
def cachedToken : JwtToken :=
  { accessToken := "old-access-token", tokenType := "bearer", expiresIn := 3600
  , scope := "read write", userID := "service-user", jti := "jti-1" }

/-- JSON decode behaviour of a truncated token response: the `access_token`
field is written before the decoder hits the end of the input and errors. -/
def truncatedBody : UnmarshalOutcome :=
  { updates := [.accessToken "new-access-token"], err := some "unexpected end of JSON input" }

/-! Helper lemmas about the two retry loops. -/

/-- When every attempt a `get` loop can still make answers 408, the loop uses
all its fuel, sleeps 100 ms per attempt, and ends with status 408 and a
non-nil error. -/
theorem getLoop_all_timeout (responses : Nat → DoResult) :
    ∀ (fuel trials : Nat) (fn : String) (tr : ExecTrace),
      (∀ i, i < fuel → (responses (trials + i)).statusOf = some 408) →
      ∃ fn1, getLoop responses fn trials fuel tr =
        (.ok { fileName := fn1, body := none, statusCode := 408,
               err := some ("Internal GET request failed after " ++
                 toString (trials + fuel + 1) ++ " trials") },
         { requests := tr.requests + fuel,
           sleeps := tr.sleeps ++ List.replicate fuel 100 }) := by
  intro fuel
  induction fuel with
  | zero =>
    intro trials fn tr _
    exact ⟨fn, by simp [getLoop]⟩
  | succ fuel ih =>
    intro trials fn tr h
    have h0 := h 0 (Nat.succ_pos fuel)
    rw [Nat.add_zero] at h0
    cases hr : responses trials with
    | err msg => rw [hr] at h0; exact absurd h0 (by simp [DoResult.statusOf])
    | ok resp =>
      rw [hr] at h0
      simp only [DoResult.statusOf, Option.some.injEq] at h0
      obtain ⟨fn1, heq⟩ := ih (trials + 1)
        (match resp.fileNameHeader with | some f => f | none => fn)
        { requests := tr.requests + 1, sleeps := tr.sleeps ++ [100] }
        (fun i hi => by
          have hx := h (i + 1) (by omega)
          rwa [show trials + (i + 1) = trials + 1 + i by omega] at hx)
      refine ⟨fn1, ?_⟩
      simp only [getLoop, hr]
      rw [if_pos h0, heq]
      have e1 : trials + 1 + fuel + 1 = trials + (fuel + 1) + 1 := by omega
      have e2 : tr.requests + 1 + fuel = tr.requests + (fuel + 1) := by omega
      have e3 : (tr.sleeps ++ [100]) ++ List.replicate fuel 100 =
          tr.sleeps ++ List.replicate (fuel + 1) 100 := by
        rw [List.append_assoc, List.singleton_append, List.replicate_succ]
      dsimp only
      rw [e1, e2, e3]

/-- When attempts `0..k-1` of a `get` loop answer 408 and attempt `k` answers
with any status other than 408, the loop returns right after attempt `k`: a
non-nil error for a status outside 200..299, a nil error otherwise. -/
theorem getLoop_stops (responses : Nat → DoResult) :
    ∀ (fuel k trials : Nat) (fn : String) (tr : ExecTrace) (resp : HttpResp),
      k < fuel →
      (∀ i, i < k → (responses (trials + i)).statusOf = some 408) →
      responses (trials + k) = .ok resp →
      resp.statusCode ≠ 408 →
      ∃ fn1, getLoop responses fn trials fuel tr =
        (.ok { fileName := fn1, body := some resp.body, statusCode := resp.statusCode,
               err := if resp.statusCode < 200 ∨ 300 ≤ resp.statusCode then
                   some ("Internal GET request failed after " ++
                     toString (trials + k + 1) ++ " trials")
                 else none },
         { requests := tr.requests + (k + 1),
           sleeps := tr.sleeps ++ List.replicate k 100 }) := by
  intro fuel
  induction fuel with
  | zero => intro k trials fn tr resp hk; exact absurd hk (Nat.not_lt_zero k)
  | succ fuel ih =>
    intro k trials fn tr resp hk h408 hresp hne
    cases k with
    | zero =>
      rw [Nat.add_zero] at hresp
      refine ⟨(match resp.fileNameHeader with | some f => f | none => fn), ?_⟩
      simp only [getLoop, hresp]
      rw [if_neg hne]
      by_cases hc : resp.statusCode < 200 ∨ 300 ≤ resp.statusCode
      · rw [if_pos hc, if_pos hc]
        simp
      · rw [if_neg hc, if_neg hc]
        simp
    | succ k =>
      have h0 := h408 0 (Nat.succ_pos k)
      rw [Nat.add_zero] at h0
      cases hr : responses trials with
      | err m => rw [hr] at h0; exact absurd h0 (by simp [DoResult.statusOf])
      | ok r0 =>
        rw [hr] at h0
        simp only [DoResult.statusOf, Option.some.injEq] at h0
        obtain ⟨fn1, heq⟩ := ih k (trials + 1)
          (match r0.fileNameHeader with | some f => f | none => fn)
          { requests := tr.requests + 1, sleeps := tr.sleeps ++ [100] } resp
          (by omega)
          (fun i hi => by
            have hx := h408 (i + 1) (by omega)
            rwa [show trials + (i + 1) = trials + 1 + i by omega] at hx)
          (by rwa [show trials + 1 + k = trials + (k + 1) by omega])
          hne
        refine ⟨fn1, ?_⟩
        simp only [getLoop, hr]
        rw [if_pos h0, heq]
        have e1 : trials + 1 + k + 1 = trials + (k + 1) + 1 := by omega
        have e2 : tr.requests + 1 + (k + 1) = tr.requests + (k + 1 + 1) := by omega
        have e3 : (tr.sleeps ++ [100]) ++ List.replicate k 100 =
            tr.sleeps ++ List.replicate (k + 1) 100 := by
          rw [List.append_assoc, List.singleton_append, List.replicate_succ]
        dsimp only
        rw [e1, e2, e3]

/-- Counterpart of `getLoop_all_timeout` for the `delete` loop. -/
theorem deleteLoop_all_timeout (responses : Nat → DoResult) :
    ∀ (fuel trials : Nat) (tr : ExecTrace),
      (∀ i, i < fuel → (responses (trials + i)).statusOf = some 408) →
      deleteLoop responses trials fuel tr =
        (.ok { body := some "", statusCode := 408,
               err := some ("Internal DELETE request failed after " ++
                 toString (trials + fuel + 1) ++ " trials") },
         { requests := tr.requests + fuel,
           sleeps := tr.sleeps ++ List.replicate fuel 100 }) := by
  intro fuel
  induction fuel with
  | zero =>
    intro trials tr _
    simp [deleteLoop]
  | succ fuel ih =>
    intro trials tr h
    have h0 := h 0 (Nat.succ_pos fuel)
    rw [Nat.add_zero] at h0
    cases hr : responses trials with
    | err msg => rw [hr] at h0; exact absurd h0 (by simp [DoResult.statusOf])
    | ok resp =>
      rw [hr] at h0
      simp only [DoResult.statusOf, Option.some.injEq] at h0
      have heq := ih (trials + 1)
        { requests := tr.requests + 1, sleeps := tr.sleeps ++ [100] }
        (fun i hi => by
          have hx := h (i + 1) (by omega)
          rwa [show trials + (i + 1) = trials + 1 + i by omega] at hx)
      simp only [deleteLoop, hr]
      rw [if_pos h0, heq]
      have e1 : trials + 1 + fuel + 1 = trials + (fuel + 1) + 1 := by omega
      have e2 : tr.requests + 1 + fuel = tr.requests + (fuel + 1) := by omega
      have e3 : (tr.sleeps ++ [100]) ++ List.replicate fuel 100 =
          tr.sleeps ++ List.replicate (fuel + 1) 100 := by
        rw [List.append_assoc, List.singleton_append, List.replicate_succ]
      dsimp only
      rw [e1, e2, e3]

/-- Counterpart of `getLoop_stops` for the `delete` loop. The success path of
`delete` returns an empty (non-nil) body instead of the response body. -/
theorem deleteLoop_stops (responses : Nat → DoResult) :
    ∀ (fuel k trials : Nat) (tr : ExecTrace) (resp : HttpResp),
      k < fuel →
      (∀ i, i < k → (responses (trials + i)).statusOf = some 408) →
      responses (trials + k) = .ok resp →
      resp.statusCode ≠ 408 →
      deleteLoop responses trials fuel tr =
        (.ok { body := if resp.statusCode < 200 ∨ 300 ≤ resp.statusCode then
                   some resp.body
                 else some "",
               statusCode := resp.statusCode,
               err := if resp.statusCode < 200 ∨ 300 ≤ resp.statusCode then
                   some ("Internal DELETE request failed after " ++
                     toString (trials + k + 1) ++ " trials")
                 else none },
         { requests := tr.requests + (k + 1),
           sleeps := tr.sleeps ++ List.replicate k 100 }) := by
  intro fuel
  induction fuel with
  | zero => intro k trials tr resp hk; exact absurd hk (Nat.not_lt_zero k)
  | succ fuel ih =>
    intro k trials tr resp hk h408 hresp hne
    cases k with
    | zero =>
      rw [Nat.add_zero] at hresp
      simp only [deleteLoop, hresp]
      rw [if_neg hne]
      by_cases hc : resp.statusCode < 200 ∨ 300 ≤ resp.statusCode
      · rw [if_pos hc, if_pos hc, if_pos hc]
        simp
      · rw [if_neg hc, if_neg hc, if_neg hc]
        simp
    | succ k =>
      have h0 := h408 0 (Nat.succ_pos k)
      rw [Nat.add_zero] at h0
      cases hr : responses trials with
      | err m => rw [hr] at h0; exact absurd h0 (by simp [DoResult.statusOf])
      | ok r0 =>
        rw [hr] at h0
        simp only [DoResult.statusOf, Option.some.injEq] at h0
        have heq := ih k (trials + 1)
          { requests := tr.requests + 1, sleeps := tr.sleeps ++ [100] } resp
          (by omega)
          (fun i hi => by
            have hx := h408 (i + 1) (by omega)
            rwa [show trials + (i + 1) = trials + 1 + i by omega] at hx)
          (by rwa [show trials + 1 + k = trials + (k + 1) by omega])
          hne
        simp only [deleteLoop, hr]
        rw [if_pos h0, heq]
        have e1 : trials + 1 + k + 1 = trials + (k + 1) + 1 := by omega
        have e2 : tr.requests + 1 + (k + 1) = tr.requests + (k + 1 + 1) := by omega
        have e3 : (tr.sleeps ++ [100]) ++ List.replicate k 100 =
            tr.sleeps ++ List.replicate (k + 1) 100 := by
          rw [List.append_assoc, List.singleton_append, List.replicate_succ]
        dsimp only
        rw [e1, e2, e3]

/-! Theorems for the specification's claims. -/

/-- C1: for every GET or DELETE call, three consecutive HTTP 408 responses
make the executor attempt exactly 3 requests (the `MaxTrials` bound) with a
fixed 100 ms delay per timed-out attempt and then return a failure (status
408 together with a non-nil error); a 2xx response on attempt `k + 1 ≤ 3`
stops further attempts and returns success (nil error); and a non-2xx
response other than 408 is returned immediately as a failure (non-nil error)
without any further attempt. -/
theorem c1_get_delete_retry_policy (responses : Nat → DoResult) :
    ((∀ i, i < MaxTrials → (responses i).statusOf = some 408) →
      (∃ fn, Client.get responses =
        (.ok { fileName := fn, body := none, statusCode := 408,
               err := some "Internal GET request failed after 4 trials" },
         { requests := 3, sleeps := [100, 100, 100] })) ∧
      Client.delete responses =
        (.ok { body := some "", statusCode := 408,
               err := some "Internal DELETE request failed after 4 trials" },
         { requests := 3, sleeps := [100, 100, 100] })) ∧
    (∀ k resp, k < MaxTrials →
      (∀ i, i < k → (responses i).statusOf = some 408) →
      responses k = .ok resp → 200 ≤ resp.statusCode → resp.statusCode < 300 →
      (∃ fn, Client.get responses =
        (.ok { fileName := fn, body := some resp.body, statusCode := resp.statusCode,
               err := none },
         { requests := k + 1, sleeps := List.replicate k 100 })) ∧
      Client.delete responses =
        (.ok { body := some "", statusCode := resp.statusCode, err := none },
         { requests := k + 1, sleeps := List.replicate k 100 })) ∧
    (∀ k resp, k < MaxTrials →
      (∀ i, i < k → (responses i).statusOf = some 408) →
      responses k = .ok resp → resp.statusCode ≠ 408 →
      (resp.statusCode < 200 ∨ 300 ≤ resp.statusCode) →
      (∃ fn, Client.get responses =
        (.ok { fileName := fn, body := some resp.body, statusCode := resp.statusCode,
               err := some ("Internal GET request failed after " ++
                 toString (k + 1) ++ " trials") },
         { requests := k + 1, sleeps := List.replicate k 100 })) ∧
      Client.delete responses =
        (.ok { body := some resp.body, statusCode := resp.statusCode,
               err := some ("Internal DELETE request failed after " ++
                 toString (k + 1) ++ " trials") },
         { requests := k + 1, sleeps := List.replicate k 100 })) := by
  refine ⟨?_, ?_, ?_⟩
  · intro h
    have hzero : ∀ i, i < MaxTrials → (responses (0 + i)).statusOf = some 408 := by
      intro i hi
      rw [Nat.zero_add]
      exact h i hi
    constructor
    · obtain ⟨fn, hfn⟩ := getLoop_all_timeout responses MaxTrials 0 ""
        { requests := 0, sleeps := [] } hzero
      refine ⟨fn, ?_⟩
      show getLoop responses "" 0 MaxTrials { requests := 0, sleeps := [] } = _
      rw [hfn]
      have es : ("Internal GET request failed after " ++
          toString (0 + MaxTrials + 1) ++ " trials") =
          "Internal GET request failed after 4 trials" := by decide
      rw [es]
      congr 1
    · have hd := deleteLoop_all_timeout responses MaxTrials 0
        { requests := 0, sleeps := [] } hzero
      show deleteLoop responses 0 MaxTrials { requests := 0, sleeps := [] } = _
      rw [hd]
      have es : ("Internal DELETE request failed after " ++
          toString (0 + MaxTrials + 1) ++ " trials") =
          "Internal DELETE request failed after 4 trials" := by decide
      rw [es]
      congr 1
  · intro k resp hk h408 hresp hlo hhi
    have hzero : ∀ i, i < k → (responses (0 + i)).statusOf = some 408 := by
      intro i hi
      rw [Nat.zero_add]
      exact h408 i hi
    have hne : resp.statusCode ≠ 408 := by omega
    have hc : ¬(resp.statusCode < 200 ∨ 300 ≤ resp.statusCode) := by omega
    constructor
    · obtain ⟨fn, hfn⟩ := getLoop_stops responses MaxTrials k 0 ""
        { requests := 0, sleeps := [] } resp hk hzero (by rwa [Nat.zero_add]) hne
      rw [if_neg hc] at hfn
      refine ⟨fn, ?_⟩
      show getLoop responses "" 0 MaxTrials { requests := 0, sleeps := [] } = _
      rw [hfn]
      congr 1
      dsimp only
      rw [Nat.zero_add, List.nil_append]
    · have hd := deleteLoop_stops responses MaxTrials k 0
        { requests := 0, sleeps := [] } resp hk hzero (by rwa [Nat.zero_add]) hne
      rw [if_neg hc, if_neg hc] at hd
      show deleteLoop responses 0 MaxTrials { requests := 0, sleeps := [] } = _
      rw [hd]
      congr 1
      dsimp only
      rw [Nat.zero_add, List.nil_append]
  · intro k resp hk h408 hresp hne hc
    have hzero : ∀ i, i < k → (responses (0 + i)).statusOf = some 408 := by
      intro i hi
      rw [Nat.zero_add]
      exact h408 i hi
    constructor
    · obtain ⟨fn, hfn⟩ := getLoop_stops responses MaxTrials k 0 ""
        { requests := 0, sleeps := [] } resp hk hzero (by rwa [Nat.zero_add]) hne
      rw [if_pos hc] at hfn
      refine ⟨fn, ?_⟩
      show getLoop responses "" 0 MaxTrials { requests := 0, sleeps := [] } = _
      rw [hfn]
      congr 1
      · rw [Nat.zero_add]
      · dsimp only
        rw [Nat.zero_add, List.nil_append]
    · have hd := deleteLoop_stops responses MaxTrials k 0
        { requests := 0, sleeps := [] } resp hk hzero (by rwa [Nat.zero_add]) hne
      rw [if_pos hc, if_pos hc] at hd
      show deleteLoop responses 0 MaxTrials { requests := 0, sleeps := [] } = _
      rw [hd]
      congr 1
      · rw [Nat.zero_add]
      · dsimp only
        rw [Nat.zero_add, List.nil_append]

/-- Witness for C1: three 408s make GET and DELETE send 3 requests with
100 ms sleeps; a 200 after one 408 stops after 2 requests; an immediate 404
stops after a single request. -/
theorem c1_retry_policy_witness :
    (Client.get allTimeout).2 = { requests := 3, sleeps := [100, 100, 100] } ∧
    (Client.delete allTimeout).2 = { requests := 3, sleeps := [100, 100, 100] } ∧
    (Client.get okAfterOneTimeout).2.requests = 2 ∧
    (Client.delete notFoundStream).2.requests = 1 := by
  obtain ⟨⟨fn, hget⟩, hdel⟩ := (c1_get_delete_retry_policy allTimeout).1 (fun i _ => rfl)
  obtain ⟨⟨fn2, hget2⟩, _⟩ := (c1_get_delete_retry_policy okAfterOneTimeout).2.1 1
    { statusCode := 200, body := "ok-body", fileNameHeader := none }
    (by decide)
    (fun i hi => by
      have h : i = 0 := by omega
      subst h
      rfl)
    rfl (by decide) (by decide)
  obtain ⟨_, hdel3⟩ := (c1_get_delete_retry_policy notFoundStream).2.2 0
    { statusCode := 404, body := "not found", fileNameHeader := none }
    (by decide) (fun i hi => absurd hi (by omega)) rfl (by decide) (by decide)
  exact ⟨by rw [hget], by rw [hdel], by rw [hget2], by rw [hdel3]⟩

/-- C2: a single invocation of the POST or PATCH primitive sends exactly one
HTTP request, whatever the transport and the response do (including an HTTP
408 response), and never sleeps for a retry delay. -/
theorem c2_post_patch_single_request (responses : Nat → DoResult) :
    (Client.post responses).2.requests = 1 ∧ (Client.patch responses).2.requests = 1 ∧
    (Client.post responses).2.sleeps = [] ∧ (Client.patch responses).2.sleeps = [] := by
  cases h : responses 0 <;> simp only [Client.post, Client.patch, h] <;>
    first
      | simp
      | (split_ifs <;> simp)

/-- C3: a bearer token that parses far enough to declare an algorithm that is
neither HS256 nor RS256 is always rejected with HTTP 403, for every possible
claim content and signature (`env.sigOf` is arbitrary), every composite-name
list and every configured key pair. -/
theorem c3_unexpected_alg_rejected (env : JwtEnv) (c : GinCtx)
    (signingKey signingPublicKey : String) (compositeName : List String)
    (tokenPartChars : List Char) (alg : String)
    (hne : effectiveToken c ≠ "")
    (hscheme : goToLower ((goSplit ' ' (effectiveToken c).toList).getD 0 []) = "bearer".toList)
    (hsecond : (goSplit ' ' (effectiveToken c).toList).get? 1 = some tokenPartChars)
    (hdr : env.decodeHeader (String.mk ((goSplit '.' tokenPartChars).getD 0 [])) =
      .header (some alg))
    (h1 : alg ≠ "HS256") (h2 : alg ≠ "RS256") :
    ValidateToken env c signingKey signingPublicKey compositeName =
      .ok (c.abortWithStatus 403) := by
  simp only [ValidateToken]
  rw [if_neg hne]
  rw [if_neg (show ¬(goToLower ((goSplit ' ' (effectiveToken c).toList).getD 0 []) ≠
    "bearer".toList) by simpa using hscheme)]
  rw [hsecond]
  simp only [hdr, getKey, if_neg h1, if_neg h2, parseWithClaims]

/-- Witness for C3: a token declaring algorithm `none` is rejected with 403. -/
theorem c3_unexpected_alg_witness :
    (effectiveToken scenarioCtx ≠ "") ∧
    goToLower ((goSplit ' ' (effectiveToken scenarioCtx).toList).getD 0 []) = "bearer".toList ∧
    (goSplit ' ' (effectiveToken scenarioCtx).toList).get? 1 = some "h.p.s".toList ∧
    ("none" ≠ "HS256" ∧ "none" ≠ "RS256") ∧
    ValidateToken noneAlgEnv scenarioCtx "s3cret" "pem" ["proj-x"] =
      .ok (scenarioCtx.abortWithStatus 403) :=
  ⟨by decide, by decide, by decide, ⟨by decide, by decide⟩,
   c3_unexpected_alg_rejected noneAlgEnv scenarioCtx "s3cret" "pem" ["proj-x"]
     "h.p.s".toList "none" (by decide) (by decide) (by decide) rfl (by decide) (by decide)⟩

/-- C4: evaluation of the code at the failing inputs. When the JWT header
segment fails base64url decoding, and likewise when it fails JSON parsing,
`ValidateToken` returns WITHOUT calling `AbortWithStatus`: the outgoing
context is unchanged, carries no 403 abort status, and gin therefore
continues the handler chain, contradicting the claim that every rejection
path aborts with HTTP 403. -/
theorem c4_header_decode_failure_not_rejected :
    ValidateToken decodeFailEnv badSegmentCtx "s3cret" "" ["proj-x"] = .ok badSegmentCtx ∧
    ValidateToken unmarshalFailEnv badSegmentCtx "s3cret" "" ["proj-x"] = .ok badSegmentCtx ∧
    badSegmentCtx.abortedStatus = none ∧ badSegmentCtx.nextCalled = false := by
  refine ⟨by decide, by decide, rfl, rfl⟩

/-- C5: evaluation of the code at the failing inputs. The validator panics
(index out of range) on a bearer value with no space-separated second part,
and panics (nil interface type assertion) on a JWT header without a string
`alg` field; the GET and DELETE executors panic (nil pointer dereference)
when the transport produces an error and no response — contradicting the
claim that these inputs produce typed rejections or failures. -/
theorem c5_panics_on_malformed_input :
    ValidateToken scenarioEnv bareBearerCtx "s3cret" "" [] =
      .error "runtime error: index out of range" ∧
    ValidateToken noAlgFieldEnv scenarioCtx "s3cret" "" [] =
      .error "interface conversion: interface is nil, not string" ∧
    (Client.get transportFailStream).1 =
      .error "runtime error: invalid memory address or nil pointer dereference" ∧
    (Client.delete transportFailStream).1 =
      .error "runtime error: invalid memory address or nil pointer dereference" ∧
    (Client.get transportFailStream).2.requests = 1 ∧
    (Client.delete transportFailStream).2.requests = 1 := by
  refine ⟨by decide, by decide, by decide, by decide, by decide, by decide⟩

/-- C6: for the scenario token validly signed with HS256 under the configured
key `s3cret` and claims user `u1` with license item `proj-x`: validation with
required entitlement `proj-x` authorizes the request (calls `Next`, no abort)
and stores user ID `u1` in the context; validation with `proj-y` aborts with
403; only the first supplied entitlement is ever consulted (appending further
names changes nothing); and with no entitlement supplied the license check is
skipped and the valid signature suffices. -/
theorem c6_hs256_entitlement_scenario :
    ValidateToken scenarioEnv scenarioCtx "s3cret" "" ["proj-x"] =
      .ok ((scenarioCtx.set "UserID" "u1").next) ∧
    ((scenarioCtx.set "UserID" "u1").next).getString "UserID" = "u1" ∧
    ((scenarioCtx.set "UserID" "u1").next).abortedStatus = none ∧
    ((scenarioCtx.set "UserID" "u1").next).nextCalled = true ∧
    ValidateToken scenarioEnv scenarioCtx "s3cret" "" ["proj-y"] =
      .ok ((scenarioCtx.set "UserID" "u1").abortWithStatus 403) ∧
    (∀ rest : List String,
      ValidateToken scenarioEnv scenarioCtx "s3cret" "" ("proj-x" :: rest) =
        ValidateToken scenarioEnv scenarioCtx "s3cret" "" ["proj-x"]) ∧
    (∀ rest : List String,
      ValidateToken scenarioEnv scenarioCtx "s3cret" "" ("proj-y" :: rest) =
        ValidateToken scenarioEnv scenarioCtx "s3cret" "" ["proj-y"]) ∧
    ValidateToken scenarioEnv scenarioCtx "s3cret" "" [] =
      .ok ((scenarioCtx.set "UserID" "u1").next) := by
  exact ⟨by decide, by decide, by decide, by decide, by decide,
         fun rest => rfl, fun rest => rfl, by decide⟩

/-- C7: a POST whose response has status 409 returns a non-error outcome (nil
error) whose body equals the response body. -/
theorem c7_post_conflict_non_error (responses : Nat → DoResult) (resp : HttpResp)
    (h0 : responses 0 = .ok resp) (h409 : resp.statusCode = 409) :
    Client.post responses =
      (.ok { body := some resp.body, statusCode := resp.statusCode, err := none },
       { requests := 1, sleeps := [] }) := by
  simp [Client.post, h0, h409]

/-- Witness for C7 at a concrete 409 response. -/
theorem c7_post_conflict_witness :
    conflictStream 0 = .ok { statusCode := 409, body := "existing resource", fileNameHeader := none } ∧
    Client.post conflictStream =
      (.ok { body := some "existing resource", statusCode := 409, err := none },
       { requests := 1, sleeps := [] }) :=
  ⟨rfl, c7_post_conflict_non_error conflictStream _ rfl rfl⟩

/-- C8 counterexample: the claim reads the schedule as `expiresIn - 30`
floored at a configured minimum, and its own `expires_in 40` scenario pins
that floor to the value `scheduleInterval 40 = 30`; but at `expires_in 80`
the code yields 30 while flooring `80 - 30 = 50` at 30 would yield 50, so the
"floored at a minimum" reading is false. -/
theorem c8_refresh_interval_counterexample :
    scheduleInterval 40 = 30 ∧ scheduleInterval 80 = 30 ∧
    max (80 - 30) (scheduleInterval 40) = 50 ∧
    scheduleInterval 80 ≠ max (80 - 30) (scheduleInterval 40) := by decide

/-- C8 (amended): after a successful refresh the next interval is
`expiresIn - 30` exactly when that difference exceeds 60 seconds, and the
fixed 30-second minimum otherwise; in particular `expires_in 3600` schedules
3570 s, `expires_in 40` schedules the 30-second floor, and the interval is
never below 30 seconds. -/
theorem c8_refresh_interval_amended (e : Nat) :
    scheduleInterval 3600 = 3570 ∧ scheduleInterval 40 = 30 ∧
    30 ≤ scheduleInterval e ∧
    (90 < e → scheduleInterval e = e - 30) ∧
    (e ≤ 90 → scheduleInterval e = 30) := by
  refine ⟨by decide, by decide, ?_, ?_, ?_⟩ <;>
    · simp only [scheduleInterval]
      split_ifs <;> omega

/-- Witness for C8 (amended) at `expires_in` 100 and 40. -/
theorem c8_refresh_interval_witness :
    (90 < 100 ∧ scheduleInterval 100 = 100 - 30) ∧
    (40 ≤ 90 ∧ scheduleInterval 40 = 30) :=
  ⟨⟨by decide, (c8_refresh_interval_amended 100).2.2.2.1 (by decide)⟩,
   ⟨by decide, (c8_refresh_interval_amended 40).2.2.2.2 (by decide)⟩⟩

/-- C9 counterexample: a token response whose JSON decode writes the
`access_token` field and then errors makes `refreshToken` report failure
while the cached credential has already been overwritten in place — the
previously cached value does not remain unchanged. -/
theorem c9_refresh_mutation_counterexample :
    (refreshToken cachedToken (.body truncatedBody)).2 = false ∧
    (refreshToken cachedToken (.body truncatedBody)).1 ≠ cachedToken ∧
    (refreshToken cachedToken (.body truncatedBody)).1.accessToken = "new-access-token" ∧
    cachedToken.accessToken = "old-access-token" := by decide

/-- C9 (amended): `refreshToken` leaves the cached credential unchanged on a
transport error and on a body-read error; but the JSON decode writes into the
cached credential in place, so on a decode error the fields decoded before the
error remain written (and on success the decoded fields are merged into the
existing value rather than replacing it wholesale). -/
theorem c9_refresh_failure_paths_amended :
    (∀ (t : JwtToken) (m : String), refreshToken t (.doErr m) = (t, false)) ∧
    (∀ (t : JwtToken) (m : String), refreshToken t (.readErr m) = (t, false)) ∧
    (∀ (t : JwtToken) (u : UnmarshalOutcome),
      refreshToken t (.body u) = (applyUpdates t u.updates, u.err.isNone)) := by
  refine ⟨fun t m => rfl, fun t m => rfl, fun t u => ?_⟩
  cases h : u.err <;> simp [refreshToken, h]

/-- C10 counterexample: a POST whose transport call fails returns an empty
body, status 500 and a nil error — the failure is not surfaced through the
error value, contradicting the claim that such a call never produces a
result with no error. -/
theorem c10_post_transport_counterexample :
    Client.post transportFailStream =
      (.ok { body := some "", statusCode := 500, err := none },
       { requests := 1, sleeps := [] }) := by decide

/-- C10 (amended): a POST whose underlying transport call fails returns an
empty body with HTTP status 500 and a nil error: the failure is signalled to
the caller only through the non-2xx status code, never through the error
value. -/
theorem c10_post_transport_amended (responses : Nat → DoResult) (msg : String)
    (h : responses 0 = .err msg) :
    Client.post responses =
      (.ok { body := some "", statusCode := 500, err := none },
       { requests := 1, sleeps := [] }) := by
  simp [Client.post, h]

/-- Witness for C10 (amended) at a concrete transport failure. -/
theorem c10_post_transport_witness :
    transportFailStream 0 = .err "connection refused" ∧
    Client.post transportFailStream =
      (.ok { body := some "", statusCode := 500, err := none },
       { requests := 1, sleeps := [] }) :=
  ⟨rfl, c10_post_transport_amended transportFailStream "connection refused" rfl⟩

end Gococo
